import Mathlib

/-!
Shallow embedding of the lawbit repository's analysis-and-normalization
pipeline and lifecycle orchestration:
  * src/src/services/documentAnalysis.ts   (analyzeDocument)
  * src/src/services/documentService.ts    (documentService.retryAnalysis)
  * src/src/services/contractService.ts    (contractService.createContract)
  * src/src/services/contractGenerationService.ts
      (generateBothContracts, saveContract)

JavaScript runtime values decoded from JSON are modelled by `JsonValue`;
JS property access, truthiness, `String(-)` coercion and the `||` operator
are modelled explicitly.  Numbers are modelled as rationals (JSON numbers
are finite decimals).  Network calls and persistence writes are modelled
as environment-supplied outcomes; a thrown JS exception is modelled as the
`thrown` field of an outcome (or an `Except.error`).
-/

namespace Lawbit

/-- A JSON value as produced by `JSON.parse` (no `undefined`; object keys may
repeat in the model, with lookup taking the last occurrence, matching
`JSON.parse` duplicate-key behaviour). -/
inductive JsonValue where
  | null : JsonValue
  | bool : Bool → JsonValue
  | num : ℚ → JsonValue
  | str : String → JsonValue
  | arr : List JsonValue → JsonValue
  | obj : List (String × JsonValue) → JsonValue

/-- Object field lookup with JS duplicate-key semantics: the LAST binding of
the key wins (as in `JSON.parse`). -/
def jlookup (fields : List (String × JsonValue)) (k : String) : Option JsonValue :=
  match fields with
  | [] => none
  | (k', v) :: rest =>
    match jlookup rest k with
    | some w => some w
    | none => if k' = k then some v else none

/-- JS truthiness of a JSON value (`0`, `""`, `null`, `false` are falsy). -/
def truthy : JsonValue → Bool
  | .null => false
  | .bool b => b
  | .num q => q ≠ 0
  | .str s => s ≠ ""
  | .arr _ => true
  | .obj _ => true

/-- Decimal rendering of a rational for JS `String(number)`; faithful on
integers, which is the only case the source pipeline can feed to it. -/
def numToString (q : ℚ) : String :=
  if q.den = 1 then toString q.num else toString q.num ++ "/" ++ toString q.den

mutual

/-- JS `String(v)` coercion on a JSON value (`[object Object]` for objects,
`Array.prototype.join` with commas for arrays, `null` for null). -/
def jsToString : JsonValue → String
  | .null => "null"
  | .bool b => if b then "true" else "false"
  | .num q => numToString q
  | .str s => s
  | .arr xs => String.intercalate "," (jsToStringElems xs)
  | .obj _ => "[object Object]"

/-- Elements of `Array.prototype.join`: `null` renders as the empty string. -/
def jsToStringElems : List JsonValue → List String
  | [] => []
  | .null :: xs => "" :: jsToStringElems xs
  | x :: xs => jsToString x :: jsToStringElems xs

end

/-- JS property access `v.k`: throws a TypeError on `null` (the only
JSON-decodable base value on which member access throws); yields `none`
(i.e. `undefined`) on non-object bases and missing keys. -/
def jsGet (v : JsonValue) (k : String) : Except String (Option JsonValue) :=
  match v with
  | .null => .error "TypeError: cannot read properties of null"
  | .obj fields => .ok (jlookup fields k)
  | _ => .ok none

/-- JS `a || b` where `a` is a possibly-undefined property value. -/
def jsOrDefault (o : Option JsonValue) (d : JsonValue) : JsonValue :=
  match o with
  | some v => if truthy v then v else d
  | none => d

/-- A normalized finding as built by the `analysis.findings.map` in
`analyzeDocument` (documentAnalysis.ts lines 76-80).  The source keeps
whatever runtime values the map produced, so `text` and `riskLevel` are
JSON values, not necessarily strings. -/
structure Finding where
  text : JsonValue
  riskLevel : JsonValue
  suggestions : List JsonValue

/-- The per-element body of `analysis.findings.map` (documentAnalysis.ts
lines 76-80):
`text: finding.text || String(finding)`,
`riskLevel: finding.riskLevel || 'medium'`,
`suggestions: Array.isArray(finding.suggestions) ? finding.suggestions : []`.
Member access on a `null` element throws. -/
def normalizeFinding (f : JsonValue) : Except String Finding :=
  match jsGet f "text", jsGet f "riskLevel", jsGet f "suggestions" with
  | .ok t, .ok rl, .ok sg =>
    .ok { text := jsOrDefault t (.str (jsToString f))
          riskLevel := jsOrDefault rl (.str "medium")
          suggestions :=
            match sg with
            | some (.arr xs) => xs
            | _ => [] }
  | .error e, _, _ => .error e
  | _, .error e, _ => .error e
  | _, _, .error e => .error e

/-- Top-level risk-level validation (documentAnalysis.ts lines 82-85):
`['low','medium','high'].includes(analysis.riskLevel)` keeps the value,
anything else is replaced by `'medium'`. -/
def normRiskLevel (v : Option JsonValue) : JsonValue :=
  match v with
  | some (.str s) => if s = "low" ∨ s = "medium" ∨ s = "high" then .str s else .str "medium"
  | _ => .str "medium"

/-- Risk-score validation (documentAnalysis.ts lines 87-90): kept only when
`typeof` is number and the value is in `[0, 100]`, else replaced by `50`. -/
def normRiskScore (v : Option JsonValue) : ℚ :=
  match v with
  | some (.num q) => if 0 ≤ q ∧ q ≤ 100 then q else 50
  | _ => 50

/-- Recommendations coercion (documentAnalysis.ts lines 92-95): kept when a
string, else `String(-)` (with `undefined` stringifying to "undefined"). -/
def normRecommendations (v : Option JsonValue) : String :=
  match v with
  | some (.str s) => s
  | some w => jsToString w
  | none => "undefined"

/-- The normalized analysis result (the `AnalysisResult` the source persists). -/
structure AnalysisResult where
  findings : List Finding
  riskLevel : JsonValue
  riskScore : ℚ
  recommendations : String

/-- The map `analysis.findings.map(...)` (documentAnalysis.ts line 76): it
visits the elements left to right and a thrown TypeError aborts it. -/
def mapFindings : List JsonValue → Except String (List Finding)
  | [] => .ok []
  | x :: xs =>
    match normalizeFinding x with
    | .error e => .error e
    | .ok f =>
      match mapFindings xs with
      | .error e => .error e
      | .ok fs => .ok (f :: fs)

/-- Validation and normalization of a decoded payload (documentAnalysis.ts
lines 70-95): reject when `findings` is not an array, then map each finding
and validate the top-level fields. -/
def normalizeAnalysis (j : JsonValue) : Except String AnalysisResult :=
  match jsGet j "findings" with
  | .error e => .error e
  | .ok fv =>
    match fv with
    | some (.arr xs) =>
      match mapFindings xs with
      | .error e => .error e
      | .ok fs =>
        match jsGet j "riskLevel", jsGet j "riskScore", jsGet j "recommendations" with
        | .ok rl, .ok rs, .ok rcs =>
          .ok { findings := fs
                riskLevel := normRiskLevel rl
                riskScore := normRiskScore rs
                recommendations := normRecommendations rcs }
        | .error e, _, _ => .error e
        | _, .error e, _ => .error e
        | _, _, .error e => .error e
    | _ => .error "Invalid findings format"

/-- Suffix of `l` starting at the first occurrence of `c` (none if absent). -/
def dropToChar (c : Char) : List Char → Option (List Char)
  | [] => none
  | x :: xs => if x = c then some (x :: xs) else dropToChar c xs

/-- The regex match `text.match(/\x7b[\s\S]*\x7d/)` of documentAnalysis.ts
line 63: the leftmost match starts at the first opening brace and, being
greedy, ends at the last closing brace of the string; there is no match
when no closing brace follows the first opening brace. -/
def extractJson (s : String) : Option String :=
  match dropToChar '{' s.data with
  | none => none
  | some t =>
    match dropToChar '}' t.reverse with
    | none => none
    | some u => some ⟨u.reverse⟩

/-! A model of the JavaScript `JSON.parse` builtin used at line 65 of
documentAnalysis.ts, written as a fuel-indexed recursive descent over the
JSON grammar (whitespace, literals, numbers with fraction/exponent and the
no-leading-zero rule, strings with escapes, arrays, objects; trailing
non-whitespace rejects). -/

def isWsChar (c : Char) : Bool := c = ' ' || c = '\t' || c = '\n' || c = '\r'

def skipWs : List Char → List Char
  | [] => []
  | c :: cs => if isWsChar c then skipWs cs else c :: cs

def digitVal (c : Char) : Nat := c.toNat - '0'.toNat

/-- Split a leading run of decimal digits off a character list. -/
def takeDigits : List Char → List Char × List Char
  | [] => ([], [])
  | c :: cs =>
    if c.isDigit then
      let (ds, rest) := takeDigits cs
      (c :: ds, rest)
    else ([], c :: cs)

def digitsToNat (ds : List Char) : Nat :=
  ds.foldl (fun acc c => acc * 10 + digitVal c) 0

/-- JSON number grammar: optional minus, integer part without leading
zeros, optional fraction, optional exponent (fraction and exponent are
folded in only when present, so an integer literal denotes its exact
value). -/
def parseNumber (cs : List Char) : Option (ℚ × List Char) :=
  let (neg, cs1) :=
    match cs with
    | '-' :: rest => (true, rest)
    | _ => (false, cs)
  match takeDigits cs1 with
  | ([], _) => none
  | (ds, rest) =>
    if 1 < ds.length ∧ ds.head? = some '0' then none
    else do
      let (ofr, rest2) ← parseFrac rest
      let (oem, rest3) ← parseExpMult rest2
      let base : ℚ := (digitsToNat ds : ℚ)
      let v1 : ℚ :=
        match ofr with
        | none => base
        | some f => base + f
      let v2 : ℚ :=
        match oem with
        | none => v1
        | some m => v1 * m
      some (if neg then -v2 else v2, rest3)
where
  /-- Optional `.digits` part, as a rational in `[0,1)` when present. -/
  parseFrac : List Char → Option (Option ℚ × List Char)
    | '.' :: r =>
      match takeDigits r with
      | ([], _) => none
      | (ds, rest) => some (some ((digitsToNat ds : ℚ) / ((10 : ℚ) ^ ds.length)), rest)
    | cs => some (none, cs)
  /-- Optional `e`/`E` part, as a power-of-ten multiplier when present. -/
  parseExpMult : List Char → Option (Option ℚ × List Char)
    | c :: r =>
      if c = 'e' ∨ c = 'E' then
        let (negE, r1) :=
          match r with
          | '+' :: rr => (false, rr)
          | '-' :: rr => (true, rr)
          | _ => (false, r)
        match takeDigits r1 with
        | ([], _) => none
        | (ds, rest) =>
          let m : ℚ := (10 : ℚ) ^ digitsToNat ds
          some (some (if negE then m⁻¹ else m), rest)
      else some (none, c :: r)
    | [] => some (none, [])

def hexVal (c : Char) : Option Nat :=
  if c.isDigit then some (c.toNat - '0'.toNat)
  else if 'a' ≤ c ∧ c ≤ 'f' then some (c.toNat - 'a'.toNat + 10)
  else if 'A' ≤ c ∧ c ≤ 'F' then some (c.toNat - 'A'.toNat + 10)
  else none

/-- Single-character JSON string escapes. -/
def escChar (e : Char) : Option Char :=
  if e = '"' then some '"'
  else if e = '\\' then some '\\'
  else if e = '/' then some '/'
  else if e = 'b' then some (Char.ofNat 8)
  else if e = 'f' then some (Char.ofNat 12)
  else if e = 'n' then some '\n'
  else if e = 'r' then some '\r'
  else if e = 't' then some '\t'
  else none

/-- JSON string body after the opening quote: yields the decoded characters
and the remainder after the closing quote.  Unescaped control characters
are rejected, as `JSON.parse` does. -/
def parseStringBody : List Char → Option (List Char × List Char)
  | [] => none
  | c :: rest =>
    if c = '"' then some ([], rest)
    else if c = '\\' then
      match rest with
      | [] => none
      | e :: rest2 =>
        if e = 'u' then
          match rest2 with
          | h1 :: h2 :: h3 :: h4 :: rest3 => do
            let a ← hexVal h1
            let b ← hexVal h2
            let c4 ← hexVal h3
            let d ← hexVal h4
            let (s, r) ← parseStringBody rest3
            some (Char.ofNat (((a * 16 + b) * 16 + c4) * 16 + d) :: s, r)
          | _ => none
        else do
          let ch ← escChar e
          let (s, r) ← parseStringBody rest2
          some (ch :: s, r)
    else if c.toNat < 32 then none
    else do
      let (s, r) ← parseStringBody rest
      some (c :: s, r)

/-- A pending recursive-descent task: parse one value, a non-empty
comma-separated run of array elements, or a non-empty run of object
members, from the given characters.  (The three mutually recursive
productions are folded into one fuel-indexed function so that the
definition stays kernel-computable.) -/
inductive PTask where
  | val (cs : List Char)
  | elems (cs : List Char)
  | mems (cs : List Char)

/-- The answer to a `PTask`, tagged by production. -/
inductive PAns where
  | val (v : JsonValue) (rest : List Char)
  | elems (vs : List JsonValue) (rest : List Char)
  | mems (ms : List (String × JsonValue)) (rest : List Char)

/-- The recursive-descent core over the JSON grammar: a value is leading
whitespace then object, array, string, literal or number; element runs
and member runs consume values separated by commas up to the closing
bracket or brace. -/
def parseRun : Nat → PTask → Option PAns
  | 0, _ => none
  | fuel + 1, .val cs =>
    match skipWs cs with
    | [] => none
    | c :: rest =>
      if c = '{' then
        match skipWs rest with
        | '}' :: r => some (.val (.obj []) r)
        | _ =>
          match parseRun fuel (.mems rest) with
          | some (.mems ms r) => some (.val (.obj ms) r)
          | _ => none
      else if c = '[' then
        match skipWs rest with
        | ']' :: r => some (.val (.arr []) r)
        | _ =>
          match parseRun fuel (.elems rest) with
          | some (.elems xs r) => some (.val (.arr xs) r)
          | _ => none
      else if c = '"' then
        match parseStringBody rest with
        | some (s, r) => some (.val (.str ⟨s⟩) r)
        | none => none
      else
        match c :: rest with
        | 't' :: 'r' :: 'u' :: 'e' :: r => some (.val (.bool true) r)
        | 'f' :: 'a' :: 'l' :: 's' :: 'e' :: r => some (.val (.bool false) r)
        | 'n' :: 'u' :: 'l' :: 'l' :: r => some (.val .null r)
        | l =>
          match parseNumber l with
          | some (q, r) => some (.val (.num q) r)
          | none => none
  | fuel + 1, .elems cs =>
    match parseRun fuel (.val cs) with
    | some (.val v r) =>
      (match skipWs r with
       | ',' :: r2 =>
         (match parseRun fuel (.elems r2) with
          | some (.elems vs r3) => some (.elems (v :: vs) r3)
          | _ => none)
       | ']' :: r2 => some (.elems [v] r2)
       | _ => none)
    | _ => none
  | fuel + 1, .mems cs =>
    match skipWs cs with
    | [] => none
    | c :: rest =>
      if c = '"' then
        match parseStringBody rest with
        | some (k, r) =>
          (match skipWs r with
           | ':' :: r2 =>
             (match parseRun fuel (.val r2) with
              | some (.val v r3) =>
                (match skipWs r3 with
                 | ',' :: r4 =>
                   (match parseRun fuel (.mems r4) with
                    | some (.mems ms r5) => some (.mems ((⟨k⟩, v) :: ms) r5)
                    | _ => none)
                 | '}' :: r4 => some (.mems [(⟨k⟩, v)] r4)
                 | _ => none)
              | _ => none)
           | _ => none)
        | none => none
      else none

/-- Model of `JSON.parse`: a single JSON value with only whitespace around it.  The
fuel bound exceeds any possible number of recursive-descent steps on the
input. -/
def parseJson (s : String) : Option JsonValue :=
  match parseRun (2 * s.length + 4) (.val s.data) with
  | some (.val v rest) => if skipWs rest = [] then some v else none
  | _ => none

/-- The inner try/catch of documentAnalysis.ts (lines 61-99): extract the
brace-delimited substring, decode it, then validate/normalize; every
failure inside the block (no match, malformed JSON, non-array findings,
member access on a null finding) is caught and rethrown as the single
message `Failed to parse analysis results`. -/
def parseAndNormalize (text : String) : Except String AnalysisResult :=
  match extractJson text with
  | none => .error "Failed to parse analysis results"
  | some js =>
    match parseJson js with
    | none => .error "Failed to parse analysis results"
    | some j =>
      match normalizeAnalysis j with
      | .ok r => .ok r
      | .error _ => .error "Failed to parse analysis results"

/-! Lifecycle orchestration: `analyzeDocument` (documentAnalysis.ts) and
`documentService.retryAnalysis` (documentService.ts).  The supabase client
does not throw on `update`; it returns an error value, which the source
checks only for the completed-state write.  Each write either applies
atomically or leaves the row unchanged. -/

/-- The `documents` table row for one document, with the columns the
pipeline touches. -/
structure DocRecord where
  status : String
  content : Option String
  risk_level : Option JsonValue
  risk_score : Option ℚ
  findings : Option (List Finding)
  recommendations : Option String
  error : Option String

/-- Environment of one `analyzeDocument` run: the provider call's outcome
(raw completion text, or the message of the exception it threw) and the
fate of each of the three possible persistence writes.  A failing
completed-state write carries the message the catch block derives from the
returned error object. -/
structure AnalyzeEnv where
  providerResult : Except String String
  analyzingWriteOk : Bool
  completedWriteError : Option String
  errorWriteOk : Bool

/-- Result of a run: the final row state, and the exception the call
rejected with, if any. -/
structure AnalyzeOutcome where
  doc : DocRecord
  thrown : Option String

/-- The catch block's status write (documentAnalysis.ts lines 120-126): a
best-effort update to `status = error` with the message, its own outcome
unchecked. -/
def errorWrite (env : AnalyzeEnv) (d : DocRecord) (msg : String) : DocRecord :=
  if env.errorWriteOk then { d with status := "error", error := some msg } else d

/-- The operation `analyzeDocument` (documentAnalysis.ts lines 15-130): set
`status = analyzing` (result unchecked), call the provider, extract and
normalize, then either write the completed state (checked; a failure is
thrown and lands in the catch) or, in the catch block, write the error
state and rethrow the exception. -/
def analyzeDocument (env : AnalyzeEnv) (d0 : DocRecord) : AnalyzeOutcome :=
  let d1 := if env.analyzingWriteOk then { d0 with status := "analyzing" } else d0
  match env.providerResult with
  | .error e => { doc := errorWrite env d1 e, thrown := some e }
  | .ok text =>
    match parseAndNormalize text with
    | .error msg => { doc := errorWrite env d1 msg, thrown := some msg }
    | .ok a =>
      match env.completedWriteError with
      | none =>
        { doc := { d1 with
                    status := "completed"
                    risk_level := some a.riskLevel
                    risk_score := some a.riskScore
                    findings := some a.findings
                    recommendations := some a.recommendations }
          thrown := none }
      | some e => { doc := errorWrite env d1 e, thrown := some e }

/-- The operation `documentService.retryAnalysis` (documentService.ts lines 146-153):
load the record; if `!document.content` (absent or empty string) throw
`Document has no content to analyze` before any write; otherwise re-invoke
`analyzeDocument` on the stored content. -/
def retryAnalysis (env : AnalyzeEnv) (d : DocRecord) : AnalyzeOutcome :=
  match d.content with
  | none => { doc := d, thrown := some "Document has no content to analyze" }
  | some c =>
    if c = "" then { doc := d, thrown := some "Document has no content to analyze" }
    else analyzeDocument env d

/-! Contract creation: `contractService.createContract`
(contractService.ts lines 5-22) and `contractGenerationService.saveContract`
(contractGenerationService.ts lines 143-167).  Both read the session user,
throw without one, and insert `[\x7b ...contractData, user_id: user.id \x7d]`:
the object spread puts the session's `user_id` after the caller's fields,
so it overwrites any caller-supplied value. -/

/-- Outcome of `supabase.auth.getUser()`: an error, or the (possibly
absent) authenticated user's id. -/
abbrev AuthResult := Except String (Option String)

/-- JS object spread update `\x7b ...fields, k: v \x7d`: overwrite the key in
place when present, else append it. -/
def jsSetField (fields : List (String × JsonValue)) (k : String) (v : JsonValue) :
    List (String × JsonValue) :=
  if fields.any (fun p => p.1 = k) then
    fields.map (fun p => if p.1 = k then (k, v) else p)
  else fields ++ [(k, v)]

/-- The operation `contractService.createContract`: require a session user, then insert
the caller's fields with `user_id` forced to the session user's id.
`insertError` is the insert's failure, if any; on success the persisted
row is returned. -/
def createContract (auth : AuthResult) (insertError : Option String)
    (contractData : List (String × JsonValue)) :
    Except String (List (String × JsonValue)) :=
  match auth with
  | .error e => .error e
  | .ok none => .error "No authenticated user"
  | .ok (some uid) =>
    match insertError with
    | some e => .error e
    | none => .ok (jsSetField contractData "user_id" (.str uid))

/-- The operation `contractGenerationService.saveContract`: same session check and same
spread-then-`user_id` insert as `createContract`. -/
def saveContract (auth : AuthResult) (insertError : Option String)
    (contractData : List (String × JsonValue)) :
    Except String (List (String × JsonValue)) :=
  match auth with
  | .error e => .error e
  | .ok none => .error "No authenticated user"
  | .ok (some uid) =>
    match insertError with
    | some e => .error e
    | none => .ok (jsSetField contractData "user_id" (.str uid))

/-- The operation `contractGenerationService.generateBothContracts` (lines 123-141):
`Promise.all` over the OpenAI and Gemini calls; it fulfils with both texts
only when both fulfil, and rejects with a failed call's reason otherwise
(the OpenAI branch's reason is reported when both fail, standing for the
first-settled rejection). -/
def generateBothContracts (openAIResult geminiResult : Except String String) :
    Except String (String × String) :=
  match openAIResult, geminiResult with
  | .ok a, .ok b => .ok (a, b)
  | .error e, _ => .error e
  | _, .error e => .error e

/-! Concrete sample inputs used to evaluate the verified properties. -/

/-- A run whose provider call throws, while every persistence write works. -/
def envProviderFail : AnalyzeEnv :=
  { providerResult := .error "Provider failure"
    analyzingWriteOk := true
    completedWriteError := none
    errorWriteOk := true }

/-- A freshly created document row holding content to analyze. -/
def doc0 : DocRecord :=
  { status := "analyzing", content := some "some contract text"
    risk_level := none, risk_score := none, findings := none
    recommendations := none, error := none }

/-- A failed document row whose content was cleared. -/
def docNoContent : DocRecord :=
  { status := "error", content := none
    risk_level := none, risk_score := none, findings := none
    recommendations := none, error := some "old error" }

/-- A decoded payload with an empty findings array and riskScore 10. -/
def payload5 : JsonValue := .obj [("findings", .arr []), ("riskScore", .num 10)]

/-- The normalization of `payload5`. -/
def res5 : AnalysisResult :=
  { findings := [], riskLevel := .str "medium", riskScore := 10
    recommendations := "undefined" }

/-- Findings array mixing a bare string and a well-formed object. -/
def xs10 : List JsonValue :=
  [.str "Missing termination clause",
   .obj [("text", .str "Unlimited liability"), ("riskLevel", .str "high"),
         ("suggestions", .arr [.str "Add a cap"])]]

/-- A decoded payload carrying `xs10` as its findings. -/
def payload10 : JsonValue := .obj [("findings", .arr xs10)]

/-- The normalization of `payload10`. -/
def res10 : AnalysisResult :=
  { findings :=
      [{ text := .str "Missing termination clause", riskLevel := .str "medium"
         suggestions := [] },
       { text := .str "Unlimited liability", riskLevel := .str "high"
         suggestions := [.str "Add a cap"] }]
    riskLevel := .str "medium", riskScore := 50, recommendations := "undefined" }

/-- Caller-supplied contract fields that try to smuggle a foreign user_id. -/
def data8 : List (String × JsonValue) :=
  [("title", .str "NDA"), ("user_id", .str "attacker")]

/-- Prose around the P4 payload: the part before the opening brace. -/
def p4pre : String := "Here is the result: "

/-- The P4 JSON object itself. -/
def p4body : String :=
  "\x7b\"findings\":[],\"riskLevel\":\"low\",\"riskScore\":10,\"recommendations\":\"none\"\x7d"

/-- Prose after the closing brace. -/
def p4post : String := " Thanks!"

/-- The P4 raw model output: prose, JSON object, prose. -/
def p4full : String := p4pre ++ p4body ++ p4post

/-- The normalization of the P4 payload. -/
def res4 : AnalysisResult :=
  { findings := [], riskLevel := .str "low", riskScore := 10
    recommendations := "none" }

/-- Raw model output holding no brace-delimited JSON at all. -/
def noJsonText : String := "I could not analyze this document, apologies."

/-! Helper lemmas about lookups, the findings map and normalization. -/

theorem jlookup_cons (k k' : String) (v' : JsonValue) (l : List (String × JsonValue)) :
    jlookup ((k', v') :: l) k =
      (jlookup l k).or (if k' = k then some v' else none) := by
  cases h : jlookup l k <;> simp [jlookup, h, Option.or]

theorem jlookup_map_overwrite (k : String) (v : JsonValue) (l : List (String × JsonValue)) :
    jlookup (l.map fun p => if p.1 = k then (k, v) else p) k =
      if l.any (fun p => p.1 = k) then some v else none := by
  induction l with
  | nil => rfl
  | cons p rest ih =>
    obtain ⟨k', v'⟩ := p
    by_cases hr : (rest.any fun p => p.1 = k) = true
    · have h1 : jlookup (rest.map fun p => if p.1 = k then (k, v) else p) k = some v := by
        rw [ih, if_pos hr]
      rw [List.map_cons, jlookup_cons, h1]
      simp [List.any_cons, hr]
    · have h1 : jlookup (rest.map fun p => if p.1 = k then (k, v) else p) k = none := by
        rw [ih, if_neg hr]
      rw [List.map_cons, jlookup_cons, h1]
      by_cases hp : k' = k <;> simp [List.any_cons, hr, hp]

theorem jlookup_append_single (k : String) (v : JsonValue) (l : List (String × JsonValue)) :
    jlookup (l ++ [(k, v)]) k = some v := by
  induction l with
  | nil => simp [jlookup]
  | cons p rest ih =>
    obtain ⟨k', v'⟩ := p
    simp [jlookup, ih]

theorem jlookup_jsSetField (l : List (String × JsonValue)) (k : String) (v : JsonValue) :
    jlookup (jsSetField l k v) k = some v := by
  unfold jsSetField
  cases h : l.any (fun p => p.1 = k) <;>
    simp [h, jlookup_map_overwrite, jlookup_append_single]

theorem mapFindings_length (xs : List JsonValue) (fs : List Finding)
    (h : mapFindings xs = .ok fs) : fs.length = xs.length := by
  induction xs generalizing fs with
  | nil =>
    simp only [mapFindings] at h
    cases h
    rfl
  | cons x rest ih =>
    simp only [mapFindings] at h
    cases hx : normalizeFinding x with
    | error e => rw [hx] at h; cases h
    | ok f =>
      rw [hx] at h
      cases hr : mapFindings rest with
      | error e => rw [hr] at h; cases h
      | ok gs =>
        rw [hr] at h
        cases h
        simp [ih gs hr]

theorem mapFindings_get (xs : List JsonValue) (fs : List Finding)
    (h : mapFindings xs = .ok fs) :
    ∀ i (hi : i < xs.length) (hi' : i < fs.length),
      normalizeFinding (xs.get ⟨i, hi⟩) = .ok (fs.get ⟨i, hi'⟩) := by
  induction xs generalizing fs with
  | nil => intro i hi hi'; exact absurd hi (by simp)
  | cons x rest ih =>
    simp only [mapFindings] at h
    cases hx : normalizeFinding x with
    | error e => rw [hx] at h; cases h
    | ok f =>
      rw [hx] at h
      cases hr : mapFindings rest with
      | error e => rw [hr] at h; cases h
      | ok gs =>
        rw [hr] at h
        cases h
        intro i hi hi'
        cases i with
        | zero => simpa using hx
        | succ n =>
          exact ih gs hr n (by simpa using hi) (by simpa using hi')

theorem normalizeAnalysis_ok_inv (j : JsonValue) (r : AnalysisResult)
    (h : normalizeAnalysis j = .ok r) :
    ∃ fields xs,
      j = .obj fields ∧
      jlookup fields "findings" = some (.arr xs) ∧
      mapFindings xs = .ok r.findings ∧
      r.riskLevel = normRiskLevel (jlookup fields "riskLevel") ∧
      r.riskScore = normRiskScore (jlookup fields "riskScore") ∧
      r.recommendations = normRecommendations (jlookup fields "recommendations") := by
  cases j with
  | null => simp [normalizeAnalysis, jsGet] at h
  | bool b => simp [normalizeAnalysis, jsGet] at h
  | num q => simp [normalizeAnalysis, jsGet] at h
  | str s => simp [normalizeAnalysis, jsGet] at h
  | arr xs => simp [normalizeAnalysis, jsGet] at h
  | obj fields =>
    simp only [normalizeAnalysis, jsGet] at h
    split at h
    · rename_i xs heq
      split at h
      · cases h
      · rename_i fs hm
        cases h
        exact ⟨fields, xs, rfl, heq, hm, rfl, rfl, rfl⟩
    · cases h

/-! Claim theorems. -/

/-- C1 (code behaviour at the failing input): the per-finding validation
`finding.riskLevel || 'medium'` keeps ANY truthy riskLevel, so the invalid
value "critical" is persisted unchanged rather than replaced by "medium" —
contradicting the claim, the declared Finding type and the spec's P1. -/
theorem riskLevel_critical_kept :
    normalizeFinding
        (.obj [("text", .str "Late fee"), ("riskLevel", .str "critical"),
               ("suggestions", .arr [])]) =
      .ok { text := .str "Late fee", riskLevel := .str "critical", suggestions := [] } := by
  rfl

/-- C2 (counterexample): a run in which only the provider fails (every
persistence write succeeds) still rethrows: the failure DOES propagate to
analyzeDocument's caller, refuting "does not propagate … only a
persistence failure surfaces". -/
theorem analysis_failure_propagates :
    (analyzeDocument envProviderFail doc0).doc.status = "error" ∧
    (analyzeDocument envProviderFail doc0).thrown ≠ none := by
  exact ⟨rfl, by decide⟩

/-- C2 (amended): when the error-state write succeeds, a provider or
parse/normalization failure is caught and converted into the persisted
error state, and the same failure is then rethrown, so it propagates to
analyzeDocument's caller (which may itself swallow it, as the
fire-and-forget creation path does). -/
theorem analysis_failure_recorded_and_rethrown (env : AnalyzeEnv) (d0 : DocRecord)
    (hE : env.errorWriteOk = true) :
    (∀ e, env.providerResult = .error e →
      (analyzeDocument env d0).doc.status = "error" ∧
      (analyzeDocument env d0).doc.error = some e ∧
      (analyzeDocument env d0).thrown = some e) ∧
    (∀ t m, env.providerResult = .ok t → parseAndNormalize t = .error m →
      (analyzeDocument env d0).doc.status = "error" ∧
      (analyzeDocument env d0).doc.error = some m ∧
      (analyzeDocument env d0).thrown = some m) := by
  constructor
  · intro e he
    simp [analyzeDocument, he, errorWrite, hE]
  · intro t m ht hm
    simp [analyzeDocument, ht, hm, errorWrite, hE]

/-- C2 (witness): the amended theorem evaluated on the concrete failing
provider run. -/
theorem analysis_failure_recorded_and_rethrown_witness :
    (analyzeDocument envProviderFail doc0).doc.status = "error" ∧
    (analyzeDocument envProviderFail doc0).doc.error = some "Provider failure" ∧
    (analyzeDocument envProviderFail doc0).thrown = some "Provider failure" :=
  (analysis_failure_recorded_and_rethrown envProviderFail doc0 rfl).1 "Provider failure" rfl

/-- C3: after any analyzeDocument run the document's status is
"completed" or "error" — the only escape is a run where a failure occurred
and the persistence write recording the error state itself failed. -/
theorem terminal_state_exclusive (env : AnalyzeEnv) (d0 : DocRecord) :
    (analyzeDocument env d0).doc.status = "completed" ∨
    (analyzeDocument env d0).doc.status = "error" ∨
    (env.errorWriteOk = false ∧ (analyzeDocument env d0).thrown ≠ none) := by
  unfold analyzeDocument
  cases hp : env.providerResult with
  | error e =>
    cases hE : env.errorWriteOk <;> simp [errorWrite, hE]
  | ok text =>
    cases hq : parseAndNormalize text with
    | error msg => cases hE : env.errorWriteOk <;> simp [hq, errorWrite, hE]
    | ok a =>
      cases hc : env.completedWriteError with
      | none => simp [hq, hc]
      | some e => cases hE : env.errorWriteOk <;> simp [hq, hc, errorWrite, hE]

/-- C5: the normalized top-level riskScore keeps a numeric input inside
[0, 100] and is 50 whenever the field is missing, non-numeric, or out of
range. -/
theorem riskScore_normalized (j : JsonValue) (r : AnalysisResult)
    (h : normalizeAnalysis j = .ok r) (fields : List (String × JsonValue))
    (hj : j = .obj fields) :
    (∀ q : ℚ, jlookup fields "riskScore" = some (.num q) → 0 ≤ q → q ≤ 100 →
      r.riskScore = q) ∧
    (∀ q : ℚ, jlookup fields "riskScore" = some (.num q) → (q < 0 ∨ 100 < q) →
      r.riskScore = 50) ∧
    ((∀ q : ℚ, jlookup fields "riskScore" ≠ some (.num q)) → r.riskScore = 50) := by
  obtain ⟨fields', xs, hj', hf, hm, hrl, hrs, hrc⟩ := normalizeAnalysis_ok_inv j r h
  rw [hj] at hj'
  cases hj'
  refine ⟨?_, ?_, ?_⟩
  · intro q hq h0 h100
    rw [hrs, hq]
    simp [normRiskScore, h0, h100]
  · intro q hq hout
    rw [hrs, hq]
    rcases hout with hlt | hgt
    · simp [normRiskScore, not_le.mpr hlt]
    · simp [normRiskScore, not_le.mpr hgt]
  · intro hnone
    rw [hrs]
    cases hv : jlookup fields "riskScore" with
    | none => simp [normRiskScore]
    | some w =>
      cases w with
      | num q => exact absurd hv (hnone q)
      | null => simp [normRiskScore]
      | bool b => simp [normRiskScore]
      | str s => simp [normRiskScore]
      | arr a => simp [normRiskScore]
      | obj o => simp [normRiskScore]

/-- C5 (witness): a payload with riskScore 10 keeps it. -/
theorem riskScore_normalized_witness :
    normalizeAnalysis payload5 = .ok res5 ∧ res5.riskScore = 10 :=
  ⟨rfl, (riskScore_normalized payload5 res5 rfl _ rfl).1 10 rfl (by norm_num) (by norm_num)⟩

/-- C6: a findings array element that is a bare string s normalizes to
the Finding with text s, riskLevel "medium" and no suggestions. -/
theorem bare_string_finding (s : String) :
    normalizeFinding (.str s) =
      .ok { text := .str s, riskLevel := .str "medium", suggestions := [] } := by
  rfl

/-- C7: retryAnalysis on a record whose stored content is absent or the
empty string throws the no-content error and leaves the record unchanged
(no write happens). -/
theorem retry_no_content (env : AnalyzeEnv) (d : DocRecord)
    (h : d.content = none ∨ d.content = some "") :
    retryAnalysis env d = { doc := d, thrown := some "Document has no content to analyze" } := by
  rcases h with h | h <;> simp [retryAnalysis, h]

/-- C7 (witness): the theorem evaluated on a cleared document. -/
theorem retry_no_content_witness :
    retryAnalysis envProviderFail docNoContent =
      { doc := docNoContent, thrown := some "Document has no content to analyze" } :=
  retry_no_content envProviderFail docNoContent (Or.inl rfl)

/-- C8: contract inserts require a session user (failing without one), and
the persisted row's user_id is the session user's id, overwriting any
caller-supplied user_id — for both createContract and saveContract. -/
theorem insert_scoped_to_session_user (auth : AuthResult) (ins : Option String)
    (data : List (String × JsonValue)) :
    (∀ uid row, auth = .ok (some uid) → createContract auth ins data = .ok row →
      jlookup row "user_id" = some (.str uid)) ∧
    (auth = .ok none → createContract auth ins data = .error "No authenticated user") ∧
    (∀ uid row, auth = .ok (some uid) → saveContract auth ins data = .ok row →
      jlookup row "user_id" = some (.str uid)) ∧
    (auth = .ok none → saveContract auth ins data = .error "No authenticated user") := by
  refine ⟨?_, ?_, ?_, ?_⟩
  · intro uid row ha hc
    subst ha
    simp only [createContract] at hc
    cases ins with
    | some e => cases hc
    | none =>
      cases hc
      exact jlookup_jsSetField data "user_id" (.str uid)
  · intro ha; subst ha; rfl
  · intro uid row ha hc
    subst ha
    simp only [saveContract] at hc
    cases ins with
    | some e => cases hc
    | none =>
      cases hc
      exact jlookup_jsSetField data "user_id" (.str uid)
  · intro ha; subst ha; rfl

/-- C8 (witness): a caller-supplied user_id "attacker" is overwritten by
the session user "user-1", and without a session the insert fails. -/
theorem insert_scoped_to_session_user_witness :
    jlookup (jsSetField data8 "user_id" (.str "user-1")) "user_id" = some (.str "user-1") ∧
    createContract (.ok none) none data8 = .error "No authenticated user" ∧
    saveContract (.ok none) none data8 = .error "No authenticated user" :=
  ⟨(insert_scoped_to_session_user (.ok (some "user-1")) none data8).1
      "user-1" (jsSetField data8 "user_id" (.str "user-1")) rfl rfl,
   (insert_scoped_to_session_user (.ok none) none data8).2.1 rfl,
   (insert_scoped_to_session_user (.ok none) none data8).2.2.2 rfl⟩

/-- C9: the dual-provider join returns both drafts exactly when both
provider calls succeed; if either fails the whole operation fails with a
failed call's reason and no draft is returned. -/
theorem both_drafts_all_or_nothing (rA rB : Except String String) :
    (∀ a b, rA = .ok a → rB = .ok b → generateBothContracts rA rB = .ok (a, b)) ∧
    (∀ e, rA = .error e → generateBothContracts rA rB = .error e) ∧
    (∀ a e, rA = .ok a → rB = .error e → generateBothContracts rA rB = .error e) := by
  refine ⟨?_, ?_, ?_⟩
  · intro a b ha hb; subst ha; subst hb; rfl
  · intro e he; subst he; cases rB <;> rfl
  · intro a e ha he; subst ha; subst he; rfl

/-- C9 (witness): concrete success and single-failure runs. -/
theorem both_drafts_all_or_nothing_witness :
    generateBothContracts (.ok "draft A") (.ok "draft B") = .ok ("draft A", "draft B") ∧
    generateBothContracts (.error "OpenAI down") (.ok "draft B") = .error "OpenAI down" ∧
    generateBothContracts (.ok "draft A") (.error "Gemini down") = .error "Gemini down" :=
  ⟨(both_drafts_all_or_nothing _ _).1 "draft A" "draft B" rfl rfl,
   (both_drafts_all_or_nothing _ _).2.1 "OpenAI down" rfl,
   (both_drafts_all_or_nothing _ _).2.2 "draft A" "Gemini down" rfl rfl⟩

/-- C10: when the decoded payload's findings field is an array and
normalization succeeds, the normalized findings list has the same length,
and its i-th element is the normalization of the i-th input element —
nothing is dropped, added or reordered. -/
theorem findings_length_and_order (j : JsonValue) (xs : List JsonValue)
    (r : AnalysisResult)
    (hf : jsGet j "findings" = .ok (some (.arr xs)))
    (h : normalizeAnalysis j = .ok r) :
    r.findings.length = xs.length ∧
    ∀ i (hi : i < xs.length) (hi' : i < r.findings.length),
      normalizeFinding (xs.get ⟨i, hi⟩) = .ok (r.findings.get ⟨i, hi'⟩) := by
  obtain ⟨fields, xs', hj, hf', hm, _, _, _⟩ := normalizeAnalysis_ok_inv j r h
  subst hj
  have hinj : jlookup fields "findings" = some (.arr xs) := by
    simpa [jsGet] using hf
  rw [hf'] at hinj
  have hxs : xs' = xs := by
    cases hinj
    rfl
  subst hxs
  exact ⟨mapFindings_length xs' r.findings hm, mapFindings_get xs' r.findings hm⟩

/-- C10 (witness): a two-element findings array (bare string plus object)
normalizes to a two-element findings list. -/
theorem findings_length_and_order_witness :
    normalizeAnalysis payload10 = .ok res10 ∧ res10.findings.length = xs10.length :=
  ⟨rfl, (findings_length_and_order payload10 xs10 res10 rfl rfl).1⟩

/-! Lemmas about the brace-substring extraction. -/

theorem dropToChar_append_none (c : Char) (p l : List Char) (hp : ∀ x ∈ p, x ≠ c) :
    dropToChar c (p ++ l) = dropToChar c l := by
  induction p with
  | nil => rfl
  | cons x xs ih =>
    have hx : x ≠ c := hp x (by simp)
    simp only [List.cons_append, dropToChar, if_neg hx]
    exact ih fun y hy => hp y (by simp [hy])

theorem dropToChar_cons_self (c : Char) (l : List Char) :
    dropToChar c (c :: l) = some (c :: l) := by
  simp [dropToChar]

theorem dropToChar_eq_some (c : Char) (l t : List Char) (h : dropToChar c l = some t) :
    ∃ p, l = p ++ t ∧ ∃ r, t = c :: r := by
  induction l with
  | nil => cases h
  | cons x xs ih =>
    by_cases hx : x = c
    · subst hx
      rw [dropToChar_cons_self] at h
      cases h
      exact ⟨[], rfl, xs, rfl⟩
    · rw [show dropToChar c (x :: xs) = dropToChar c xs by simp [dropToChar, hx]] at h
      obtain ⟨p, hp, r, hr⟩ := ih h
      exact ⟨x :: p, by simp [hp], r, hr⟩

theorem getElem?_append_cons {α : Type} (l₁ l₂ : List α) (a : α) :
    (l₁ ++ a :: l₂)[l₁.length]? = some a := by
  induction l₁ with
  | nil => simp
  | cons x xs ih => simpa using ih

theorem extractJson_surrounded (pre body post : String)
    (hpre : ∀ ch ∈ pre.data, ch ≠ '{')
    (hpost : ∀ ch ∈ post.data, ch ≠ '}')
    (hb1 : body.data.head? = some '{')
    (hb2 : body.data.getLast? = some '}') :
    extractJson (pre ++ body ++ post) = some body := by
  obtain ⟨p⟩ := pre
  obtain ⟨b⟩ := body
  obtain ⟨q⟩ := post
  obtain ⟨b', hb⟩ : ∃ b', b = '{' :: b' := by
    cases hcb : b with
    | nil => rw [hcb] at hb1; cases hb1
    | cons c0 rest =>
      rw [hcb] at hb1
      cases hb1
      exact ⟨rest, rfl⟩
  obtain ⟨w, hw⟩ : ∃ w, b.reverse = '}' :: w := by
    have hrev : b.reverse.head? = some '}' := by
      rw [List.head?_reverse]
      exact hb2
    cases hcb : b.reverse with
    | nil => rw [hcb] at hrev; cases hrev
    | cons c1 rest =>
      rw [hcb] at hrev
      cases hrev
      exact ⟨rest, rfl⟩
  have hdata : ((⟨p⟩ ++ ⟨b⟩ ++ ⟨q⟩ : String)).data = p ++ (b ++ q) := by
    simp [String.data_append]
  have h1 : dropToChar '{' (p ++ (b ++ q)) = some (b ++ q) := by
    rw [dropToChar_append_none '{' p (b ++ q) hpre, hb, List.cons_append,
        dropToChar_cons_self]
  have h2 : dropToChar '}' ((b ++ q).reverse) = some b.reverse := by
    rw [List.reverse_append,
        dropToChar_append_none '}' q.reverse b.reverse
          (fun y hy => hpost y (List.mem_reverse.mp hy)),
        hw, dropToChar_cons_self]
  simp only [extractJson, hdata, h1, h2, List.reverse_reverse]

theorem extractJson_self (body : String)
    (hb1 : body.data.head? = some '{')
    (hb2 : body.data.getLast? = some '}') :
    extractJson body = some body := by
  have h := extractJson_surrounded "" body "" (by simp) (by simp) hb1 hb2
  have hid : ("" ++ body ++ "" : String) = body := by
    obtain ⟨b⟩ := body
    show (⟨[] ++ b ++ []⟩ : String) = ⟨b⟩
    simp
  rwa [hid] at h

theorem extractJson_some_pair (s t : String) (h : extractJson s = some t) :
    ∃ i j : Nat, i < j ∧ s.data[i]? = some '{' ∧ s.data[j]? = some '}' := by
  unfold extractJson at h
  split at h
  · cases h
  · rename_i u1 h1
    split at h
    · cases h
    · rename_i u2 h2
      obtain ⟨p1, hp1, r1, hr1⟩ := dropToChar_eq_some _ _ _ h1
      obtain ⟨p2, hp2, r2, hr2⟩ := dropToChar_eq_some _ _ _ h2
      have hu1 : u1 = u2.reverse ++ p2.reverse := by
        have hrev := congrArg List.reverse hp2
        simpa [List.reverse_append] using hrev
      have hu2r : u2.reverse = r2.reverse ++ ['}'] := by
        rw [hr2]; simp
      have hne : r2.reverse ≠ [] := by
        intro hnil
        rw [hu2r, hnil, hr1] at hu1
        simp at hu1
      refine ⟨p1.length, p1.length + r2.reverse.length, ?_, ?_, ?_⟩
      · have hpos : 0 < r2.reverse.length := List.length_pos.mpr hne
        omega
      · rw [hp1, hr1]
        exact getElem?_append_cons p1 r1 '{'
      · have hs : s.data = (p1 ++ r2.reverse) ++ '}' :: p2.reverse := by
          rw [hp1, hu1, hu2r]
          simp
        rw [hs]
        have hlen : (p1 ++ r2.reverse).length = p1.length + r2.reverse.length := by simp
        rw [← hlen]
        exact getElem?_append_cons _ _ '}'

/-- C4: the JSON extraction takes the substring from the first opening
brace to the last closing brace, so a decodable object survives
surrounding prose (the pipeline gives the same result as on the object
alone); raw text with no opening-then-closing brace pair makes the parse
step fail with the parse error. -/
theorem extraction_first_to_last_brace :
    (∀ pre body post : String,
      (∀ ch ∈ pre.data, ch ≠ '{') →
      (∀ ch ∈ post.data, ch ≠ '}') →
      body.data.head? = some '{' →
      body.data.getLast? = some '}' →
      extractJson (pre ++ body ++ post) = some body ∧
      parseAndNormalize (pre ++ body ++ post) = parseAndNormalize body) ∧
    (∀ s : String,
      (¬ ∃ i j : Nat, i < j ∧ s.data[i]? = some '{' ∧ s.data[j]? = some '}') →
      parseAndNormalize s = .error "Failed to parse analysis results") := by
  constructor
  · intro pre body post hpre hpost hb1 hb2
    have hext := extractJson_surrounded pre body post hpre hpost hb1 hb2
    refine ⟨hext, ?_⟩
    unfold parseAndNormalize
    rw [hext, extractJson_self body hb1 hb2]
  · intro s hno
    cases hE : extractJson s with
    | none =>
      unfold parseAndNormalize
      rw [hE]
    | some t => exact absurd (extractJson_some_pair s t hE) hno

/-- C4 (witness): property P4's raw text — prose, JSON object, prose —
extracts exactly the object, normalizes identically to the object alone
(to riskLevel low, riskScore 10), and prose with no braces fails with the
parse error. -/
theorem extraction_first_to_last_brace_witness :
    extractJson p4full = some p4body ∧
    parseAndNormalize p4full = parseAndNormalize p4body ∧
    parseAndNormalize p4body = .ok res4 ∧
    parseAndNormalize noJsonText = .error "Failed to parse analysis results" := by
  refine ⟨?_, ?_, ?_, ?_⟩
  · exact (extraction_first_to_last_brace.1 p4pre p4body p4post
      (by decide) (by decide) (by decide) (by decide)).1
  · exact (extraction_first_to_last_brace.1 p4pre p4body p4post
      (by decide) (by decide) (by decide) (by decide)).2
  · rfl
  · refine extraction_first_to_last_brace.2 noJsonText ?_
    rintro ⟨i, j, hij, hi, hj⟩
    have hmem : '{' ∈ noJsonText.data := List.getElem?_mem hi
    exact absurd hmem (by decide)

end Lawbit
